import Mathlib

/-!
Shallow embedding of the `base-core` Go service (users/orders CRUD backend)
and proofs about its behaviour.

The embedding follows the Go sources file by file:

* `internal/common/errors.go`, `error_codes.go`, `response.go`
  — error values, `ServiceError`, error codes, HTTP-status mapping;
* `internal/common/transaction.go` (helpers part)
  — `ValidatePagination`, `CalculateTotalPages`;
* `internal/entity/user.go`, `internal/modules/user/repository/user_repository.go`,
  `internal/modules/user/service/user_service.go`,
  `internal/modules/user/dto/user_dto.go` (validator part)
  — the User module;
* `internal/interfaces/*.go`, `internal/container/container.go`,
  `internal/modules/order/*` — the Order module and the inter-module registry;
* `internal/router/router.go`, `internal/middleware/*` — the middleware
  chain, the request-validation middleware and the token-bucket rate limiter.

Modelling conventions: the relational store is a Lean list of records; the
store is the single writer of timestamps, which are abstract `Nat` ticks
passed in as `now`; `uuid.New().String()` is modelled as an injective supply
`uuidGen : Nat -> String` indexed by a per-module generation counter (the
supply function is a parameter, so theorems about identifier freshness state
their dependence on the supply explicitly); Go's `float64` amounts are
modelled as rationals because the service only stores and copies them, never
computes with them; fallible Go functions returning `(T, error)` become
`Except GoErr T`.
-/

/-! ## Error model — `internal/common/errors.go` -/

/-- Sentinel error values declared in `internal/common/errors.go`
(`ErrNotFound`, `ErrInvalid`, `ErrInternal`) together with the driver-level
record-not-found error that the repositories translate. -/
inductive BaseErr where
  | notFound
  | invalid
  | internal
  deriving DecidableEq, Repr

/-- A Go `error` value as it flows through this codebase: a sentinel, a
`fmt.Errorf("...: %w", err)` wrapper (`common.WrapError`), or a
`*common.ServiceError` carrying a wrapped error, a message and a code.
`NewServiceError` is always called with a non-nil underlying error in this
repository, so the `svc` constructor carries a `GoErr` rather than an
`Option GoErr`. -/
inductive GoErr where
  | base : BaseErr → GoErr
  | wrap : String → GoErr → GoErr
  | svc : GoErr → String → String → GoErr
  deriving DecidableEq, Repr

/-- Model of `errors.Is(err, target)` for the sentinel targets used in this
codebase: walk the `Unwrap` chain (`WrapError` unwraps to its wrapped error,
`ServiceError.Unwrap` returns its `Err` field) and compare with the target
sentinel. -/
def errorIs : GoErr → BaseErr → Bool
  | .base b, t => b == t
  | .wrap _ e, t => errorIs e t
  | .svc e _ _, t => errorIs e t

/-- Model of `common.NewServiceError(err, message, code)`. -/
def NewServiceError (err : GoErr) (message code : String) : GoErr :=
  .svc err message code

/-- The `Code` field of a `*common.ServiceError`; a non-service error carries
no code (`RespondServiceError` treats it as a bare internal error). -/
def GoErr.code : GoErr → String
  | .svc _ _ c => c
  | _ => ""

/-- The `Message` field of a `*common.ServiceError`. -/
def GoErr.message : GoErr → String
  | .svc _ m _ => m
  | _ => ""

/-! Error-code constants from `internal/common/error_codes.go`. -/

def ErrorCodeInternalError : String := "INTERNAL_ERROR"
def ErrorCodeBadRequest : String := "BAD_REQUEST"
def ErrorCodeNotFound : String := "NOT_FOUND"
def ErrorCodeUnauthorized : String := "UNAUTHORIZED"
def ErrorCodeForbidden : String := "FORBIDDEN"
def ErrorCodeValidationError : String := "VALIDATION_ERROR"
def ErrorCodeInvalid : String := "INVALID"
def ErrorCodeRateLimitExceeded : String := "RATE_LIMIT_EXCEEDED"
def ErrorCodeRequestTimeout : String := "REQUEST_TIMEOUT"
def ErrorCodeEmailExists : String := "EMAIL_EXISTS"
def ErrorCodeUserNotFound : String := "USER_NOT_FOUND"
def ErrorCodeUserAlreadyExists : String := "USER_ALREADY_EXISTS"
def ErrorCodeInvalidCredentials : String := "INVALID_CREDENTIALS"
def ErrorCodeUserInactive : String := "USER_INACTIVE"
def ErrorCodeDatabaseError : String := "DATABASE_ERROR"
def ErrorCodeRecordNotFound : String := "RECORD_NOT_FOUND"
def ErrorCodeDuplicateEntry : String := "DUPLICATE_ENTRY"
def ErrorCodeConstraintViolation : String := "CONSTRAINT_VIOLATION"

/-- Model of `mapErrorCodeToHTTPStatus` in `internal/common/response.go`. -/
def mapErrorCodeToHTTPStatus (code : String) : Nat :=
  if code = ErrorCodeNotFound ∨ code = ErrorCodeUserNotFound ∨
      code = ErrorCodeRecordNotFound then 404
  else if code = ErrorCodeBadRequest ∨ code = ErrorCodeInvalid ∨
      code = ErrorCodeValidationError ∨ code = ErrorCodeEmailExists ∨
      code = ErrorCodeUserAlreadyExists ∨ code = ErrorCodeDuplicateEntry ∨
      code = ErrorCodeConstraintViolation then 400
  else if code = ErrorCodeUnauthorized ∨ code = ErrorCodeInvalidCredentials then 401
  else if code = ErrorCodeForbidden ∨ code = ErrorCodeUserInactive then 403
  else if code = ErrorCodeRateLimitExceeded then 429
  else if code = ErrorCodeRequestTimeout then 504
  else 500

/-- Model of `common.HandleRepositoryError(err, notFoundMessage, notFoundCode,
internalErrorMessage)` from `internal/common/errors.go` (the error-helpers
part), for a non-nil repository error. -/
def HandleRepositoryError (err : GoErr) (notFoundMessage notFoundCode internalErrorMessage : String) : GoErr :=
  if errorIs err .notFound then NewServiceError err notFoundMessage notFoundCode
  else NewServiceError err internalErrorMessage ErrorCodeInternalError

/-! ## Pagination helpers — `internal/common/transaction.go` (helpers part) -/

/-- Model of `common.ValidatePagination(page, limit, defaultLimit)`:
page defaulted to 1 when non-positive, limit defaulted when non-positive.
No upper clamping happens here. -/
def ValidatePagination (page limit defaultLimit : Int) : Int × Int :=
  let page := if page ≤ 0 then 1 else page
  let limit := if limit ≤ 0 then defaultLimit else limit
  (page, limit)

/-- Model of `common.CalculateTotalPages(total, limit)`:
`(int(total) + limit - 1) / limit` with a guard returning 0 for a
non-positive limit. Go `/` on integers truncates toward zero; all uses here
have non-negative operands, where truncation agrees with `Int.tdiv`. -/
def CalculateTotalPages (total limit : Int) : Int :=
  if limit ≤ 0 then 0
  else Int.tdiv (total + limit - 1) limit

/-- The constant `common.DefaultPaginationLimit` (orders). -/
def DefaultPaginationLimit : Int := 10

/-- The constant `common.DefaultPaginationLimitUser`. -/
def DefaultPaginationLimitUser : Int := 20

/-- Sanity check: for positive operands `CalculateTotalPages` is the rounding-up
division, stated through `Nat.ceilDiv` (not a claim theorem). -/
theorem calculateTotalPages_eq_ceilDiv (total limit : Nat) (hl : 0 < limit) :
    CalculateTotalPages (total : Int) (limit : Int) = ((total ⌈/⌉ limit : Nat) : Int) := by
  have hl' : ¬ ((limit : Int) ≤ 0) := by
    simp only [not_le]
    exact_mod_cast hl
  unfold CalculateTotalPages
  rw [if_neg hl']
  rw [Nat.ceilDiv_eq_add_pred_div]
  have h1 : (total : Int) + limit - 1 = ((total + limit - 1 : Nat) : Int) := by
    have : 1 ≤ total + limit := by omega
    push_cast [this]
    ring
  rw [h1, Int.tdiv_eq_ediv (by positivity) (by positivity)]
  norm_cast

/-! ## User entity — `internal/entity/user.go` -/

/-- The `users` table row. Timestamps are abstract ticks written by the store
(`autoCreateTime` / `autoUpdateTime`). -/
structure User where
  id : String
  name : String
  email : String
  status : Int
  createdAt : Nat
  updatedAt : Nat
  deriving DecidableEq, Repr

/-! ## User repository — `internal/modules/user/repository/user_repository.go`

The relational store is modelled as the list of rows in insertion order.
The store itself is assumed healthy (no connection faults), so list
operations never produce a storage error; `First` not finding a row becomes
the `ErrNotFound` sentinel exactly as in the source. -/

namespace userRepository

/-- `FindByID`: `First` on `id = ?`, `gorm.ErrRecordNotFound` translated to
`common.ErrNotFound`. -/
def findByID (users : List User) (id : String) : Except GoErr User :=
  match users.find? (fun u => u.id == id) with
  | some u => .ok u
  | none => .error (.base .notFound)

/-- `FindByEmail`: `First` on `email = ?` (parameter equality on the unique
email column), `gorm.ErrRecordNotFound` translated to `common.ErrNotFound`. -/
def findByEmail (users : List User) (email : String) : Except GoErr User :=
  match users.find? (fun u => u.email == email) with
  | some u => .ok u
  | none => .error (.base .notFound)

/-- `Create`: inserts the row; the store writes both timestamps
(`autoCreateTime`, `autoUpdateTime`). -/
def create (users : List User) (u : User) (now : Nat) : List User :=
  users ++ [{ u with createdAt := now, updatedAt := now }]

/-- The store-level effect of
`db.Model(&User{}).Where(id = ?).Updates(user)` on one matching row.
GORM's `Updates` with a struct argument writes only the non-zero fields of
the struct (documented GORM behaviour): an empty-string `Name`/`Email` and a
zero `Status` are omitted from the generated `SET` clause. `updated_at` is
written by `autoUpdateTime`. -/
def applyStructUpdates (row u : User) (now : Nat) : User :=
  { row with
    name := if u.name ≠ "" then u.name else row.name
    email := if u.email ≠ "" then u.email else row.email
    status := if u.status ≠ 0 then u.status else row.status
    updatedAt := now }

/-- The store-level `UPDATE ... WHERE id = ?`: returns the affected-row count
and the table after the update. -/
def storeUpdate (users : List User) (u : User) (now : Nat) : Nat × List User :=
  (users.countP (fun row => row.id == u.id),
   users.map (fun row => if row.id == u.id then applyStructUpdates row u now else row))

/-- `Update`: runs the store update and, exactly as in the source, returns
`common.ErrNotFound` when `result.RowsAffected == 0`. -/
def update (users : List User) (u : User) (now : Nat) : Except GoErr (List User) :=
  let result := storeUpdate users u now
  if result.1 == 0 then .error (.base .notFound)
  else .ok result.2

/-- The store-level `DELETE FROM users WHERE id = ?`: affected-row count and
the table after the delete. -/
def storeDelete (users : List User) (id : String) : Nat × List User :=
  (users.countP (fun row => row.id == id),
   users.filter (fun row => ¬ (row.id == id)))

/-- `Delete`: runs the store delete and returns `common.ErrNotFound` when
`result.RowsAffected == 0`. -/
def delete (users : List User) (id : String) : Except GoErr (List User) :=
  let result := storeDelete users id
  if result.1 == 0 then .error (.base .notFound)
  else .ok result.2

/-- Case-insensitive `LIKE '%pat%'` match (MySQL `LIKE` is case-insensitive
under the default collation; the spec describes the filter as
case-insensitive substring match). -/
def sqlLike (s pat : String) : Bool :=
  if pat = "" then true
  else ((s.toLower).splitOn pat.toLower).length ≥ 2

/-- Insertion into a list kept in descending `createdAt` order (stable). -/
def insertByCreatedAtDesc (u : User) : List User → List User
  | [] => [u]
  | v :: rest =>
      if v.createdAt ≥ u.createdAt then v :: insertByCreatedAtDesc u rest
      else u :: v :: rest

/-- `ORDER BY created_at DESC` (stable sort). -/
def sortByCreatedAtDesc (users : List User) : List User :=
  users.foldr insertByCreatedAtDesc []

/-- `FindAllWithFilters`: builds the fluent query (`Like` on name and email,
each applied only for a non-empty pattern), orders by `created_at DESC`,
then counts **without** the pagination (the query builder's `Count` uses the
un-paginated query; `Page` only records limit/offset for `Find`) and fetches
one page. The query builder's `Page(page, size)` clamps `page < 1` to 1 and
`size < 1` to 20, and `Find` applies `Limit`/`Offset` only when positive. -/
def findAllWithFilters (users : List User) (name email : String) (page limit : Int) :
    Except GoErr (List User × Int) :=
  let filtered := users.filter (fun u =>
    (name == "" || sqlLike u.name name) && (email == "" || sqlLike u.email email))
  let total : Int := filtered.length
  let p := if page < 1 then 1 else page
  let sz := if limit < 1 then 20 else limit
  let offset := (p - 1) * sz
  let rows := ((sortByCreatedAtDesc filtered).drop offset.toNat).take sz.toNat
  .ok (rows, total)

end userRepository

/-! ## User DTOs and validator — `internal/modules/user/dto/user_dto.go` -/

/-- `dto.CreateUserRequest`. -/
structure CreateUserRequest where
  name : String
  email : String
  deriving DecidableEq, Repr

/-- `dto.UpdateUserRequest`: empty string and nil pointer mean
"field not supplied". -/
structure UpdateUserRequest where
  name : String
  email : String
  status : Option Int
  deriving DecidableEq, Repr

/-- `dto.UserResponse` (`createdAt`/`updatedAt` kept as the underlying ticks;
the RFC3339 formatting is presentation only). -/
structure UserResponse where
  id : String
  name : String
  email : String
  status : Int
  createdAt : Nat
  updatedAt : Nat
  deriving DecidableEq, Repr

/-- `dto.PagingRequest` after query binding (absent parameters bind to 0). -/
structure PagingRequest where
  page : Int
  limit : Int
  name : String
  email : String
  deriving DecidableEq, Repr

/-- `dto.UserPagingResponse`. -/
structure UserPagingResponse where
  data : List UserResponse
  page : Int
  limit : Int
  total : Int
  totalPages : Int
  deriving DecidableEq, Repr

/-! ## User service — `internal/modules/user/service/user_service.go` -/

/-- The User module's mutable world: the `users` table plus the generation
counter indexing the UUID supply. -/
structure UserDB where
  users : List User
  gen : Nat
  deriving DecidableEq, Repr

namespace userService

/-- `toUserResponse`. -/
def toUserResponse (u : User) : UserResponse :=
  { id := u.id, name := u.name, email := u.email, status := u.status,
    createdAt := u.createdAt, updatedAt := u.updatedAt }

/-- `Create`: email-uniqueness check via `FindByEmail` (internal error only
for a non-NotFound lookup failure; a found row yields `EMAIL_EXISTS`),
then a new row with a fresh identifier and default active status. -/
def Create (uuidGen : Nat → String) (now : Nat) (s : UserDB) (req : CreateUserRequest) :
    Except GoErr UserResponse × UserDB :=
  match userRepository.findByEmail s.users req.email with
  | .ok _existing =>
      (.error (NewServiceError (.base .invalid) "User with this email already exists" ErrorCodeEmailExists), s)
  | .error e =>
      if ¬ errorIs e .notFound then
        (.error (NewServiceError e "Failed to check user existence" ErrorCodeInternalError), s)
      else
        let user : User :=
          { id := uuidGen s.gen, name := req.name, email := req.email, status := 1,
            createdAt := 0, updatedAt := 0 }
        let stored : User := { user with createdAt := now, updatedAt := now }
        (.ok (toUserResponse stored),
         { users := userRepository.create s.users user now, gen := s.gen + 1 })

/-- `Update`: 404 when the id is absent; email uniqueness re-checked only
when a non-empty email differing from the current one is supplied; only
supplied fields overwrite the in-memory entity before `repo.Update`. -/
def Update (now : Nat) (s : UserDB) (id : String) (req : UpdateUserRequest) :
    Except GoErr Unit × UserDB :=
  match userRepository.findByID s.users id with
  | .error e =>
      if errorIs e .notFound then
        (.error (NewServiceError e "User not found" ErrorCodeUserNotFound), s)
      else
        (.error (NewServiceError e "Failed to get user" ErrorCodeInternalError), s)
  | .ok found =>
      let emailStep : Except GoErr User :=
        if req.email ≠ "" ∧ req.email ≠ found.email then
          match userRepository.findByEmail s.users req.email with
          | .ok _existing =>
              .error (NewServiceError (.base .invalid) "Email already exists" ErrorCodeEmailExists)
          | .error e =>
              if ¬ errorIs e .notFound then
                .error (NewServiceError e "Failed to check email uniqueness" ErrorCodeInternalError)
              else
                .ok { found with email := req.email }
        else .ok found
      match emailStep with
      | .error e => (.error e, s)
      | .ok user0 =>
          let user1 := if req.name ≠ "" then { user0 with name := req.name } else user0
          let user2 :=
            match req.status with
            | some st => { user1 with status := st }
            | none => user1
          match userRepository.update s.users user2 now with
          | .error e =>
              if errorIs e .notFound then
                (.error (NewServiceError e "User not found" ErrorCodeUserNotFound), s)
              else
                (.error (NewServiceError e "Failed to update user" ErrorCodeInternalError), s)
          | .ok users2 => (.ok (), { s with users := users2 })

/-- `Delete`: existence check via `FindByID`, then `repo.Delete`. -/
def Delete (s : UserDB) (id : String) : Except GoErr Unit × UserDB :=
  match userRepository.findByID s.users id with
  | .error e =>
      if errorIs e .notFound then
        (.error (NewServiceError e "User not found" ErrorCodeUserNotFound), s)
      else
        (.error (NewServiceError e "Failed to get user" ErrorCodeInternalError), s)
  | .ok _found =>
      match userRepository.delete s.users id with
      | .error e =>
          if errorIs e .notFound then
            (.error (NewServiceError e "User not found" ErrorCodeUserNotFound), s)
          else
            (.error (NewServiceError e "Failed to delete user" ErrorCodeInternalError), s)
      | .ok users2 => (.ok (), { s with users := users2 })

/-- `GetByID`. -/
def GetByID (s : UserDB) (id : String) : Except GoErr UserResponse :=
  match userRepository.findByID s.users id with
  | .error e =>
      if errorIs e .notFound then
        .error (NewServiceError e "User not found" ErrorCodeUserNotFound)
      else
        .error (NewServiceError e "Failed to get user" ErrorCodeInternalError)
  | .ok u => .ok (toUserResponse u)

/-- `GetAll`: fetches a filtered page and builds the paging envelope.
The total-page count is computed as `int(total) / req.Limit` — Go integer
division, i.e. truncation — exactly as in the source (the common helper
`CalculateTotalPages` is *not* called here). -/
def GetAll (s : UserDB) (req : PagingRequest) : Except GoErr UserPagingResponse :=
  match userRepository.findAllWithFilters s.users req.name req.email req.page req.limit with
  | .error e => .error (NewServiceError e "Failed to get users" ErrorCodeInternalError)
  | .ok (users, total) =>
      .ok { data := users.map toUserResponse,
            page := req.page, limit := req.limit, total := total,
            totalPages := Int.tdiv total req.limit }

end userService

/-! ## User validator — `internal/modules/user/validator/user_validator.go`
and the `binding` tags of `internal/modules/user/dto/user_dto.go`.

The go-playground validator is an external collaborator; its tag semantics
are modelled directly: `required` demands a non-zero value, `omitempty`
skips the remaining checks for a zero value, `min`/`max` bound lengths
(strings) or values (ints), and `oneof` restricts to the listed values.
The `email` tag is under-approximated by non-emptiness: every string the
real validator accepts is non-empty, which is the only consequence used in
the theorems below. -/

namespace userValidator

/-- `ValidateCreate` / the `CreateUserRequest` binding tags:
name `required,min=1,max=255`, email `required,email`. -/
def validateCreate (req : CreateUserRequest) : Bool :=
  req.name ≠ "" && req.name.length ≥ 1 && req.name.length ≤ 255 && req.email ≠ ""

/-- `ValidateUpdate` / the `UpdateUserRequest` binding tags:
name `omitempty,min=1,max=255`, email `omitempty,email`,
status `omitempty,oneof=0 1`. (`omitempty` on `*int` skips only a nil
pointer, so a supplied `status` must be 0 or 1.) -/
def validateUpdate (req : UpdateUserRequest) : Bool :=
  (req.name == "" || (req.name.length ≥ 1 && req.name.length ≤ 255)) &&
  (match req.status with
   | none => true
   | some st => st == 0 || st == 1)

/-- The `PagingRequest` binding tags checked both by `ShouldBindQuery` and by
`ValidatePaging`'s `validate.Struct` call: page `omitempty,min=1`,
limit `omitempty,min=1,max=100`. -/
def bindingPagingOk (page limit : Int) : Bool :=
  (page == 0 || 1 ≤ page) && (limit == 0 || (1 ≤ limit && limit ≤ 100))

/-- `ValidatePaging`: re-runs the struct validation (an out-of-range value is
rejected with a validation error *before* the defaulting code below runs),
then defaults `page < 1` to 1, `limit < 1` to 20 and clamps `limit > 100`
to 100 — the clamp branch is unreachable because the struct validation has
already rejected any limit above 100. -/
def ValidatePaging (page limit : Int) : Except GoErr (Int × Int) :=
  if ¬ bindingPagingOk page limit then .error (.base .invalid)
  else
    let p := if page < 1 then 1 else page
    let l := if limit < 1 then 20 else limit
    let l2 := if l > 100 then 100 else l
    .ok (p, l2)

end userValidator

/-! ## User handler — `internal/modules/user/handler/user_handler.go`

Query parameters are modelled as `Option Int` (absent binds to the zero
value). `ShouldBindQuery` runs the binding-tag validation; a failure is a
400 `BAD_REQUEST` response before the service is reached. -/

namespace userHandler

/-- The effective pagination parameters produced by `GET /users` before the
service call: `ShouldBindQuery` (binding tags) then
`validator.ValidatePaging` (struct validation plus defaulting). -/
def effectivePaging (pageParam limitParam : Option Int) : Except GoErr (Int × Int) :=
  let page := pageParam.getD 0
  let limit := limitParam.getD 0
  if ¬ userValidator.bindingPagingOk page limit then .error (.base .invalid)
  else userValidator.ValidatePaging page limit

/-- `POST /users`: bind, validate, then `service.Create`. A validation
failure leaves the state unchanged. -/
def create (uuidGen : Nat → String) (now : Nat) (s : UserDB) (req : CreateUserRequest) :
    Except GoErr UserResponse × UserDB :=
  if ¬ userValidator.validateCreate req then (.error (.base .invalid), s)
  else userService.Create uuidGen now s req

/-- `PUT /users/:id`: bind, validate, then `service.Update`. -/
def update (now : Nat) (s : UserDB) (id : String) (req : UpdateUserRequest) :
    Except GoErr Unit × UserDB :=
  if ¬ userValidator.validateUpdate req then (.error (.base .invalid), s)
  else userService.Update now s id req

/-- `DELETE /users/:id`. -/
def delete (s : UserDB) (id : String) : Except GoErr Unit × UserDB :=
  userService.Delete s id

end userHandler

/-- A mutating request against the User module's public interface, used to
state invariants over arbitrary call sequences. -/
inductive UserOp where
  | create (req : CreateUserRequest)
  | update (id : String) (req : UpdateUserRequest)
  | delete (id : String)
  deriving Repr

/-- One public-interface request applied to the module state (read-only
requests do not change the state and are omitted). -/
def applyUserOp (uuidGen : Nat → String) (now : Nat) (s : UserDB) : UserOp → UserDB
  | .create req => (userHandler.create uuidGen now s req).2
  | .update id req => (userHandler.update now s id req).2
  | .delete id => (userHandler.delete s id).2

/-- A sequence of public-interface requests, each with its own clock tick. -/
def applyUserOps (uuidGen : Nat → String) (s : UserDB) : List (Nat × UserOp) → UserDB
  | [] => s
  | (now, op) :: rest => applyUserOps uuidGen (applyUserOp uuidGen now s op) rest

/-! ## Inter-module interfaces and registry —
`internal/interfaces/user_service.go`, `internal/container/container.go` -/

/-- `interfaces.UserInfo`: the minimal cross-module projection. -/
structure UserInfo where
  id : String
  name : String
  email : String
  status : Int
  deriving DecidableEq, Repr

/-- `container.ModuleContainer`, restricted to the capability slots the Order
module consumes. A slot holds `none` when the providing module is not
registered. `VerifyUserExists` returns `none` for success or `some` error;
`GetUserByID` returns the projection or an error. The capabilities are
arbitrary functions so that theorems quantify over every possible provider
behaviour (including a failing User module). -/
structure ModuleContainer where
  userVerifier : Option (String → Option GoErr)
  userGetter : Option (String → Except GoErr UserInfo)

/-! ## Order entity — `internal/entity/order.go` -/

/-- Order status constants. -/
def OrderStatusPending : Int := 1

def OrderStatusCompleted : Int := 2

def OrderStatusCancelled : Int := 3

/-- The `orders` table row. `amount` is a Go `float64` that the service only
stores and copies (never computes with), modelled as a rational. -/
structure Order where
  id : String
  userID : String
  productName : String
  quantity : Int
  amount : ℚ
  status : Int
  createdAt : Nat
  updatedAt : Nat
  deriving DecidableEq, Repr

/-! ## Order DTOs — `internal/modules/order/dto/order_dto.go` -/

/-- `dto.CreateOrderRequest`. -/
structure CreateOrderRequest where
  userID : String
  productName : String
  quantity : Int
  amount : ℚ
  deriving DecidableEq, Repr

/-- `dto.UpdateOrderRequest`. -/
structure UpdateOrderRequest where
  productName : String
  quantity : Option Int
  amount : Option ℚ
  status : Option Int
  deriving DecidableEq, Repr

/-- `dto.OrderResponse`; `userName`/`userEmail` are the enrichment fields
populated from the User module. -/
structure OrderResponse where
  id : String
  userID : String
  userName : String
  userEmail : String
  productName : String
  quantity : Int
  amount : ℚ
  status : Int
  statusText : String
  createdAt : Nat
  updatedAt : Nat
  deriving DecidableEq, Repr

/-- `dto.OrderPagingRequest` after query binding. -/
structure OrderPagingRequest where
  page : Int
  limit : Int
  userID : String
  productName : String
  status : Option Int
  deriving DecidableEq, Repr

/-- `dto.OrderPagingResponse`. -/
structure OrderPagingResponse where
  data : List OrderResponse
  page : Int
  limit : Int
  total : Int
  totalPages : Int
  deriving DecidableEq, Repr

/-! ## Order repository — `internal/modules/order/repository/order_repository.go` -/

namespace orderRepository

/-- `FindByID`. -/
def findByID (orders : List Order) (id : String) : Except GoErr Order :=
  match orders.find? (fun o => o.id == id) with
  | some o => .ok o
  | none => .error (.base .notFound)

/-- `Create`: inserts the row; the store writes both timestamps. -/
def create (orders : List Order) (o : Order) (now : Nat) : List Order :=
  orders ++ [{ o with createdAt := now, updatedAt := now }]

/-- The store-level effect of the map-based
`Updates(map{product_name, quantity, amount, status})` on one matching row:
a map argument writes every listed column, zero values included, and
`updated_at` is written by the update. -/
def applyMapUpdates (row u : Order) (now : Nat) : Order :=
  { row with
    productName := u.productName
    quantity := u.quantity
    amount := u.amount
    status := u.status
    updatedAt := now }

/-- The store-level `UPDATE orders ... WHERE id = ?`: affected-row count and
the table after the update. -/
def storeUpdate (orders : List Order) (u : Order) (now : Nat) : Nat × List Order :=
  (orders.countP (fun row => row.id == u.id),
   orders.map (fun row => if row.id == u.id then applyMapUpdates row u now else row))

/-- `Update`: `common.ErrNotFound` when `result.RowsAffected == 0`. -/
def update (orders : List Order) (u : Order) (now : Nat) : Except GoErr (List Order) :=
  let result := storeUpdate orders u now
  if result.1 == 0 then .error (.base .notFound)
  else .ok result.2

/-- The store-level `DELETE FROM orders WHERE id = ?`. -/
def storeDelete (orders : List Order) (id : String) : Nat × List Order :=
  (orders.countP (fun row => row.id == id),
   orders.filter (fun row => ¬ (row.id == id)))

/-- `Delete`: `common.ErrNotFound` when `result.RowsAffected == 0`. -/
def delete (orders : List Order) (id : String) : Except GoErr (List Order) :=
  let result := storeDelete orders id
  if result.1 == 0 then .error (.base .notFound)
  else .ok result.2

/-- Insertion into a list kept in descending `createdAt` order (stable). -/
def insertByCreatedAtDesc (o : Order) : List Order → List Order
  | [] => [o]
  | v :: rest =>
      if v.createdAt ≥ o.createdAt then v :: insertByCreatedAtDesc o rest
      else o :: v :: rest

/-- `ORDER BY created_at DESC` (stable sort). -/
def sortByCreatedAtDesc (orders : List Order) : List Order :=
  orders.foldr insertByCreatedAtDesc []

/-- `FindAllWithFilters`: equality filter on `user_id`, substring `LIKE` on
`product_name`, equality on `status` (each only when supplied); the count is
taken before `Offset`/`Limit` are applied. -/
def findAllWithFilters (orders : List Order) (userID productName : String)
    (status : Option Int) (page limit : Int) : Except GoErr (List Order × Int) :=
  let filtered := orders.filter (fun o =>
    (userID == "" || o.userID == userID) &&
    (productName == "" || userRepository.sqlLike o.productName productName) &&
    (match status with
     | none => true
     | some st => o.status == st))
  let total : Int := filtered.length
  let offset := (page - 1) * limit
  let rows := ((sortByCreatedAtDesc filtered).drop offset.toNat).take limit.toNat
  .ok (rows, total)

/-- `FindByUserID`: equality filter on `user_id`; count before pagination. -/
def findByUserID (orders : List Order) (userID : String) (page limit : Int) :
    Except GoErr (List Order × Int) :=
  let filtered := orders.filter (fun o => o.userID == userID)
  let total : Int := filtered.length
  let offset := (page - 1) * limit
  let rows := ((sortByCreatedAtDesc filtered).drop offset.toNat).take limit.toNat
  .ok (rows, total)

end orderRepository

/-! ## Order service — `internal/modules/order/service/order_service.go` -/

/-- The Order module's mutable world: the `orders` table plus the generation
counter indexing the UUID supply. -/
structure OrderDB where
  orders : List Order
  gen : Nat
  deriving DecidableEq, Repr

namespace orderService

/-- `getStatusText`. -/
def getStatusText (status : Int) : String :=
  if status = OrderStatusPending then "pending"
  else if status = OrderStatusCompleted then "completed"
  else if status = OrderStatusCancelled then "cancelled"
  else "unknown"

/-- `verifyUserExists`: skipped (no-op success) when the `UserVerifier`
capability is not registered. -/
def verifyUserExists (c : ModuleContainer) (userID : String) : Option GoErr :=
  match c.userVerifier with
  | none => none
  | some v => v userID

/-- `getUserForValidation`: with no `UserGetter` capability, falls back to
verification only and returns no user data (`.ok none`); otherwise the
getter both verifies existence and fetches the projection, and its error is
propagated. -/
def getUserForValidation (c : ModuleContainer) (userID : String) :
    Except GoErr (Option UserInfo) :=
  match c.userGetter with
  | none =>
      match verifyUserExists c userID with
      | some e => .error e
      | none => .ok none
  | some g =>
      match g userID with
      | .error e => .error e
      | .ok u => .ok (some u)

/-- `toOrderResponse`: builds the projection and then best-effort enriches
`userName`/`userEmail` through the `UserGetter` capability; a missing
capability or a failed call silently leaves the fields empty, and the
function itself never fails. -/
def toOrderResponse (c : ModuleContainer) (o : Order) : Except GoErr OrderResponse :=
  let response : OrderResponse :=
    { id := o.id, userID := o.userID, userName := "", userEmail := "",
      productName := o.productName, quantity := o.quantity, amount := o.amount,
      status := o.status, statusText := getStatusText o.status,
      createdAt := o.createdAt, updatedAt := o.updatedAt }
  match c.userGetter with
  | none => .ok response
  | some g =>
      match g o.userID with
      | .ok u => .ok { response with userName := u.name, userEmail := u.email }
      | .error _ => .ok response

/-- `convertOrdersToResponses`: the conversion loop, aborting on the first
error. -/
def convertOrdersToResponses (c : ModuleContainer) : List Order → Except GoErr (List OrderResponse)
  | [] => .ok []
  | o :: rest =>
      match toOrderResponse c o with
      | .error e => .error e
      | .ok r =>
          match convertOrdersToResponses c rest with
          | .error e => .error e
          | .ok rs => .ok (r :: rs)

/-- `Create`: validates the user through the registry (rejecting an inactive
user with a domain-validation error), then inserts the order with default
pending status. When a database handle is available the insert runs inside a
transaction; for this single-insert both paths perform the same store write,
so `hasDB` selects between two identical effects (kept to mirror the
explicit fallback in the source). -/
def Create (c : ModuleContainer) (hasDB : Bool) (uuidGen : Nat → String) (now : Nat)
    (s : OrderDB) (req : CreateOrderRequest) : Except GoErr OrderResponse × OrderDB :=
  match getUserForValidation c req.userID with
  | .error e => (.error e, s)
  | .ok user? =>
      let inactive :=
        match user? with
        | some u => u.status == 0
        | none => false
      if inactive then
        (.error (NewServiceError (.base .invalid) "User is inactive" ErrorCodeInvalid), s)
      else
        let order : Order :=
          { id := uuidGen s.gen, userID := req.userID, productName := req.productName,
            quantity := req.quantity, amount := req.amount, status := OrderStatusPending,
            createdAt := 0, updatedAt := 0 }
        let orders2 :=
          if hasDB then orderRepository.create s.orders order now
          else orderRepository.create s.orders order now
        let stored : Order := { order with createdAt := now, updatedAt := now }
        match toOrderResponse c stored with
        | .error e => (.error e, { orders := orders2, gen := s.gen + 1 })
        | .ok r => (.ok r, { orders := orders2, gen := s.gen + 1 })

/-- `Update`: existence check, partial overwrite of supplied fields, then
`repo.Update` (map-based, all four columns written). -/
def Update (now : Nat) (s : OrderDB) (id : String) (req : UpdateOrderRequest) :
    Except GoErr Unit × OrderDB :=
  match orderRepository.findByID s.orders id with
  | .error e =>
      (.error (HandleRepositoryError e "Order not found" ErrorCodeNotFound "Failed to get order"), s)
  | .ok found =>
      let o1 := if req.productName ≠ "" then { found with productName := req.productName } else found
      let o2 :=
        match req.quantity with
        | some q => { o1 with quantity := q }
        | none => o1
      let o3 :=
        match req.amount with
        | some a => { o2 with amount := a }
        | none => o2
      let o4 :=
        match req.status with
        | some st => { o3 with status := st }
        | none => o3
      match orderRepository.update s.orders o4 now with
      | .error e =>
          (.error (HandleRepositoryError e "Order not found" ErrorCodeNotFound "Failed to update order"), s)
      | .ok orders2 => (.ok (), { s with orders := orders2 })

/-- `Delete`: existence check then `repo.Delete`. -/
def Delete (s : OrderDB) (id : String) : Except GoErr Unit × OrderDB :=
  match orderRepository.findByID s.orders id with
  | .error e =>
      (.error (HandleRepositoryError e "Order not found" ErrorCodeNotFound "Failed to get order"), s)
  | .ok _found =>
      match orderRepository.delete s.orders id with
      | .error e =>
          (.error (HandleRepositoryError e "Order not found" ErrorCodeNotFound "Failed to delete order"), s)
      | .ok orders2 => (.ok (), { s with orders := orders2 })

/-- `GetByID`: lookup plus enrichment. -/
def GetByID (c : ModuleContainer) (s : OrderDB) (id : String) : Except GoErr OrderResponse :=
  match orderRepository.findByID s.orders id with
  | .error e =>
      .error (HandleRepositoryError e "Order not found" ErrorCodeNotFound "Failed to get order")
  | .ok o => toOrderResponse c o

/-- `GetAll`: defaults the paging through the common helper, fetches a page
and builds the envelope with `CalculateTotalPages`. -/
def GetAll (c : ModuleContainer) (s : OrderDB) (req : OrderPagingRequest) :
    Except GoErr OrderPagingResponse :=
  let pl := ValidatePagination req.page req.limit DefaultPaginationLimit
  match orderRepository.findAllWithFilters s.orders req.userID req.productName req.status pl.1 pl.2 with
  | .error e => .error (NewServiceError e "Failed to get orders" ErrorCodeInternalError)
  | .ok (orders, total) =>
      match convertOrdersToResponses c orders with
      | .error e => .error e
      | .ok rs =>
          .ok { data := rs, page := pl.1, limit := pl.2, total := total,
                totalPages := CalculateTotalPages total pl.2 }

/-- `GetByUserID`: defaults the paging, verifies the user through the
registry *before* querying orders, then fetches and enriches the page. -/
def GetByUserID (c : ModuleContainer) (s : OrderDB) (userID : String) (page limit : Int) :
    Except GoErr OrderPagingResponse :=
  let pl := ValidatePagination page limit DefaultPaginationLimit
  match verifyUserExists c userID with
  | some e => .error e
  | none =>
      match orderRepository.findByUserID s.orders userID pl.1 pl.2 with
      | .error e => .error (NewServiceError e "Failed to get orders" ErrorCodeInternalError)
      | .ok (orders, total) =>
          match convertOrdersToResponses c orders with
          | .error e => .error e
          | .ok rs =>
              .ok { data := rs, page := pl.1, limit := pl.2, total := total,
                    totalPages := CalculateTotalPages total pl.2 }

end orderService

/-! ## Order handler — `internal/modules/order/handler/order_handler.go` -/

namespace orderHandler

/-- The effective pagination parameters produced by `GET /orders`:
`ShouldBindQuery` (binding tags, a failure is a 400 response), handler
defaults (`page <= 0` to 1, `limit <= 0` to 10), then the service's
`ValidatePagination` (a no-op after the handler defaults). -/
def effectivePaging (pageParam limitParam : Option Int) : Except GoErr (Int × Int) :=
  let page := pageParam.getD 0
  let limit := limitParam.getD 0
  if ¬ userValidator.bindingPagingOk page limit then .error (.base .invalid)
  else
    let p := if page ≤ 0 then 1 else page
    let l := if limit ≤ 0 then 10 else limit
    .ok (ValidatePagination p l DefaultPaginationLimit)

/-- The effective pagination parameters produced by `GET /orders/user/:id`:
binding is attempted only when the `page` query parameter is present, and a
binding failure silently falls back to the defaults `(1, 10)` instead of
rejecting; the service's `ValidatePagination` is then a no-op. -/
def effectivePagingByUser (pageParam limitParam : Option Int) : Int × Int :=
  let fallback : Int × Int := (1, 10)
  let chosen :=
    match pageParam with
    | none => fallback
    | some pv =>
        let lv := limitParam.getD 0
        if userValidator.bindingPagingOk pv lv then
          (if pv > 0 then pv else 1, if lv > 0 then lv else 10)
        else fallback
  ValidatePagination chosen.1 chosen.2 DefaultPaginationLimit

end orderHandler

/-! ## Middleware chain — `internal/router/router.go` and
`internal/middleware/*.go`

`NewRouter` starts from `gin.Default()`, which attaches gin's own `Logger`
and `Recovery` middleware (documented gin behaviour), and then registers the
project middleware with `r.Use` in a fixed order. In gin, middleware runs in
registration order and each stage wraps everything registered after it, so
"earlier in the list" means "outer". -/

/-- One stage of the request pipeline. -/
inductive Stage where
  | ginLogger
  | ginRecovery
  | securityHeaders
  | cors
  | requestID
  | rateLimit
  | timeout
  | requestSizeValidation
  | contentTypeValidation
  | metrics
  | logging
  | recovery
  deriving DecidableEq, Repr

/-- The middleware chain built by `NewRouter` (outermost first). The CORS
stage is `CORSWithProductionConfig` in production and `CORS()` otherwise —
the same pipeline position either way, so the chain does not depend on the
environment flag. -/
def newRouterChain (_isProduction : Bool) : List Stage :=
  [.ginLogger, .ginRecovery,
   .securityHeaders, .cors, .requestID, .rateLimit, .timeout,
   .requestSizeValidation, .contentTypeValidation,
   .metrics, .logging, .recovery]

/-- Position of a stage in the chain (outer stages have smaller indices). -/
def stagePos (chain : List Stage) (s : Stage) : Nat :=
  chain.indexOf s

/-! ### Request validation middleware — `internal/middleware/validation.go` -/

/-- HTTP method of an inbound request. -/
inductive Method where
  | GET
  | POST
  | PUT
  | DELETE
  | PATCH
  | OPTIONS
  deriving DecidableEq, Repr

/-- The request fields inspected by the validation middleware. -/
structure HttpRequest where
  method : Method
  contentLength : Int
  contentType : String
  deriving DecidableEq, Repr

/-- An aborting middleware response: HTTP status plus error code. -/
structure AbortResponse where
  status : Nat
  code : String
  deriving DecidableEq, Repr

/-- `ContentTypeValidation`: skips GET/DELETE/OPTIONS and bodyless requests;
otherwise requires a `Content-Type` header with the `application/json`
media-type family, aborting with 400 (missing) or 415 (wrong type). -/
def contentTypeValidation (r : HttpRequest) : Option AbortResponse :=
  if r.method = .GET ∨ r.method = .DELETE ∨ r.method = .OPTIONS then none
  else if r.contentLength = 0 then none
  else if r.contentType = "" then some ⟨400, "MISSING_CONTENT_TYPE"⟩
  else if ¬ r.contentType.startsWith "application/json" then
    some ⟨415, "INVALID_CONTENT_TYPE"⟩
  else none

/-- `RequestSizeValidation(maxSize)`: aborts with 413 when the declared body
length exceeds the limit. -/
def requestSizeValidation (maxSize : Int) (r : HttpRequest) : Option AbortResponse :=
  if maxSize < r.contentLength then some ⟨413, "REQUEST_TOO_LARGE"⟩ else none

/-! ### Token-bucket rate limiter — `internal/middleware/ratelimit.go`

The per-client limiter is `golang.org/x/time/rate.Limiter`: a token bucket
holding at most `burst` tokens, refilled continuously at `limitR` tokens per
second. `Allow` advances the bucket to the call time and admits the request
when at least one token is available, consuming it. Times and token counts
are modelled as rationals. -/

/-- A single client's token bucket. -/
structure Limiter where
  limitR : ℚ
  burst : ℕ
  tokens : ℚ
  last : ℚ
  deriving DecidableEq, Repr

namespace Limiter

/-- `rate.NewLimiter(r, b)` as first observed by a call at time 0: a full
bucket. -/
def new (r : ℚ) (b : ℕ) : Limiter :=
  { limitR := r, burst := b, tokens := b, last := 0 }

/-- Advance the bucket to time `t`: refill at `limitR` tokens per second,
capped at `burst`. -/
def advance (l : Limiter) (t : ℚ) : ℚ :=
  min (l.burst : ℚ) (l.tokens + (t - l.last) * l.limitR)

/-- `Allow()` at time `t`. -/
def allow (l : Limiter) (t : ℚ) : Bool × Limiter :=
  let tok := l.advance t
  if 1 ≤ tok then (true, { l with tokens := tok - 1, last := t })
  else (false, { l with tokens := tok, last := t })

/-- A back-to-back burst of `n` `Allow()` calls at the same instant. -/
def allowSeq (l : Limiter) (t : ℚ) : ℕ → List Bool × Limiter
  | 0 => ([], l)
  | n + 1 =>
      let first := l.allow t
      let rest := allowSeq first.2 t n
      (first.1 :: rest.1, rest.2)

end Limiter

/-- `RateLimitWithLimiter`: a disallowed request is aborted with HTTP 429 and
code `RATE_LIMIT_EXCEEDED`; an allowed one proceeds down the chain. -/
def rateLimitMiddleware (l : Limiter) (t : ℚ) : Option AbortResponse × Limiter :=
  let r := l.allow t
  if r.1 then (none, r.2)
  else (some ⟨429, ErrorCodeRateLimitExceeded⟩, r.2)

/-! ## Claim theorems -/

/-- C3: when the registry's User capability is registered and the referenced
user exists with inactive status (status = 0), `Order.Create` is rejected
with a domain-validation error (code `INVALID`, mapped to the 400
validation/bad-input class, not to 404), and the order table and generation
counter are unchanged (no order record is created). -/
theorem order_create_inactive_user_rejected
    (c : ModuleContainer) (g : String → Except GoErr UserInfo)
    (hg : c.userGetter = some g)
    (hasDB : Bool) (uuidGen : Nat → String) (now : Nat) (s : OrderDB)
    (req : CreateOrderRequest) (u : UserInfo)
    (hu : g req.userID = .ok u) (hstatus : u.status = 0) :
    ∃ e, orderService.Create c hasDB uuidGen now s req = (.error e, s) ∧
      e.code = ErrorCodeInvalid ∧
      mapErrorCodeToHTTPStatus e.code = 400 ∧
      mapErrorCodeToHTTPStatus e.code ≠ 404 := by
  refine ⟨NewServiceError (.base .invalid) "User is inactive" ErrorCodeInvalid, ?_, by decide, by decide, by decide⟩
  simp [orderService.Create, orderService.getUserForValidation, hg, hu, hstatus]

/-- Witness for C3 at a concrete container, user and request. -/
theorem order_create_inactive_user_rejected_witness :
    ∃ e, orderService.Create
        ⟨none, some fun _ => .ok ⟨"u1", "Ann", "a@x.com", 0⟩⟩ false (fun _ => "id-0") 7
        ⟨[], 0⟩ ⟨"u1", "Widget", 2, 9⟩ = (.error e, ⟨[], 0⟩) ∧
      e.code = ErrorCodeInvalid ∧
      mapErrorCodeToHTTPStatus e.code = 400 ∧
      mapErrorCodeToHTTPStatus e.code ≠ 404 :=
  order_create_inactive_user_rejected
    ⟨none, some fun _ => .ok ⟨"u1", "Ann", "a@x.com", 0⟩⟩ _ rfl false _ 7 ⟨[], 0⟩
    ⟨"u1", "Widget", 2, 9⟩ ⟨"u1", "Ann", "a@x.com", 0⟩ rfl rfl

/-- C6: for both repositories, `Update` and `Delete` return the `NotFound`
sentinel exactly when the store reports zero affected rows, succeed (with
the updated table) when at least one row is affected, and a zero
affected-row count coincides with the absence of any row with the targeted
identifier. -/
theorem repository_zero_affected_rows_means_not_found
    (users : List User) (uu : User) (unow : Nat) (uid : String)
    (orders : List Order) (ou : Order) (onow : Nat) (oid : String) :
    ((userRepository.storeUpdate users uu unow).1 = 0 →
        userRepository.update users uu unow = .error (.base .notFound)) ∧
    (1 ≤ (userRepository.storeUpdate users uu unow).1 →
        userRepository.update users uu unow = .ok (userRepository.storeUpdate users uu unow).2) ∧
    ((userRepository.storeDelete users uid).1 = 0 →
        userRepository.delete users uid = .error (.base .notFound)) ∧
    (1 ≤ (userRepository.storeDelete users uid).1 →
        userRepository.delete users uid = .ok (userRepository.storeDelete users uid).2) ∧
    ((orderRepository.storeUpdate orders ou onow).1 = 0 →
        orderRepository.update orders ou onow = .error (.base .notFound)) ∧
    (1 ≤ (orderRepository.storeUpdate orders ou onow).1 →
        orderRepository.update orders ou onow = .ok (orderRepository.storeUpdate orders ou onow).2) ∧
    ((orderRepository.storeDelete orders oid).1 = 0 →
        orderRepository.delete orders oid = .error (.base .notFound)) ∧
    (1 ≤ (orderRepository.storeDelete orders oid).1 →
        orderRepository.delete orders oid = .ok (orderRepository.storeDelete orders oid).2) ∧
    ((userRepository.storeUpdate users uu unow).1 = 0 ↔ ∀ row ∈ users, row.id ≠ uu.id) ∧
    ((orderRepository.storeDelete orders oid).1 = 0 ↔ ∀ row ∈ orders, row.id ≠ oid) := by
  refine ⟨?_, ?_, ?_, ?_, ?_, ?_, ?_, ?_, ?_, ?_⟩
  · intro h
    simp [userRepository.update, h]
  · intro h
    simp only [userRepository.update]
    rw [if_neg (by simp only [beq_iff_eq]; omega)]
  · intro h
    simp [userRepository.delete, h]
  · intro h
    simp only [userRepository.delete]
    rw [if_neg (by simp only [beq_iff_eq]; omega)]
  · intro h
    simp [orderRepository.update, h]
  · intro h
    simp only [orderRepository.update]
    rw [if_neg (by simp only [beq_iff_eq]; omega)]
  · intro h
    simp [orderRepository.delete, h]
  · intro h
    simp only [orderRepository.delete]
    rw [if_neg (by simp only [beq_iff_eq]; omega)]
  · simp only [userRepository.storeUpdate]
    rw [List.countP_eq_zero]
    simp
  · simp only [orderRepository.storeDelete]
    rw [List.countP_eq_zero]
    simp

/-- Witness for C6: the two directions exercised on a one-row table. -/
theorem repository_zero_affected_rows_means_not_found_witness :
    userRepository.update [] ⟨"u1", "Ann", "a@x.com", 1, 0, 0⟩ 3 = .error (.base .notFound) ∧
    userRepository.delete [⟨"u1", "Ann", "a@x.com", 1, 0, 0⟩] "u1" =
      .ok (userRepository.storeDelete [⟨"u1", "Ann", "a@x.com", 1, 0, 0⟩] "u1").2 :=
  ⟨(repository_zero_affected_rows_means_not_found [] ⟨"u1", "Ann", "a@x.com", 1, 0, 0⟩ 3 "u1" [] ⟨"o", "u", "p", 1, 1, 1, 0, 0⟩ 0 "o").1 (by decide),
   (repository_zero_affected_rows_means_not_found [⟨"u1", "Ann", "a@x.com", 1, 0, 0⟩] ⟨"u1", "Ann", "a@x.com", 1, 0, 0⟩ 3 "u1" [] ⟨"o", "u", "p", 1, 1, 1, 0, 0⟩ 0 "o").2.2.2.1 (by decide)⟩

/-- Five demonstration users with distinct identifiers and emails. -/
def fiveUsers : List User :=
  [⟨"u1", "Ann", "ann@x.com", 1, 1, 1⟩,
   ⟨"u2", "Bob", "bob@x.com", 1, 2, 2⟩,
   ⟨"u3", "Cid", "cid@x.com", 1, 3, 3⟩,
   ⟨"u4", "Dee", "dee@x.com", 1, 4, 4⟩,
   ⟨"u5", "Eve", "eve@x.com", 1, 5, 5⟩]

/-- C2 (failing-input evaluation): on a table of 5 users, an unfiltered
`User.GetAll` with limit 2 succeeds and reports `totalPages = 2` — the
source computes `int(total) / req.Limit`, truncating division — while the
repository's own helper `CalculateTotalPages` (the rounding-up division that
the spec and the module's README prescribe, and that the Order service uses)
gives 3. -/
theorem user_getAll_totalPages_truncates_at_failing_input :
    ∃ resp, userService.GetAll ⟨fiveUsers, 5⟩ ⟨1, 2, "", ""⟩ = .ok resp ∧
      resp.total = 5 ∧ resp.limit = 2 ∧ resp.totalPages = 2 ∧
      CalculateTotalPages 5 2 = 3 ∧ resp.totalPages ≠ CalculateTotalPages resp.total resp.limit := by
  refine ⟨_, rfl, ?_, ?_, ?_, ?_, ?_⟩ <;> decide

/-- C5 (failing-input evaluation): updating an existing active user through
the public interface with the partial request `{status: 0}` (name and email
omitted, a status supplied as inactive) reports success, yet the persisted
row still has `status = 1`: the repository's struct-based GORM `Updates`
call omits zero-valued fields from the `SET` clause, so the supplied value 0
is silently dropped instead of overwriting the field exactly. -/
theorem user_update_supplied_zero_status_not_persisted :
    (userHandler.update 5 ⟨[⟨"u1", "Ann", "ann@x.com", 1, 0, 0⟩], 1⟩ "u1" ⟨"", "", some 0⟩).1 = .ok () ∧
    (userHandler.update 5 ⟨[⟨"u1", "Ann", "ann@x.com", 1, 0, 0⟩], 1⟩ "u1" ⟨"", "", some 0⟩).2.users =
      [⟨"u1", "Ann", "ann@x.com", 1, 0, 5⟩] := by
  exact ⟨rfl, by decide⟩

/-- C7 (counterexample): a user-list request with `limit = 150` is rejected
by the binding validation with an error — it is not clamped down to an
effective size of 100 as the claim states — and the order-list endpoint
behaves the same way. -/
theorem pagination_oversize_rejected_not_clamped :
    userHandler.effectivePaging (some 1) (some 150) = .error (.base .invalid) ∧
    userHandler.effectivePaging (some 1) (some 150) ≠ .ok (1, 100) ∧
    orderHandler.effectivePaging (some 1) (some 150) = .error (.base .invalid) ∧
    userHandler.effectivePaging (some (-1)) none = .error (.base .invalid) := by
  refine ⟨rfl, fun h => Except.noConfusion h, rfl, rfl⟩


/-- Unfolding of the binding-tag check into arithmetic (helper lemma). -/
theorem bindingPagingOk_iff (page limit : Int) :
    userValidator.bindingPagingOk page limit = true ↔
      ((page = 0 ∨ 1 ≤ page) ∧ (limit = 0 ∨ (1 ≤ limit ∧ limit ≤ 100))) := by
  simp only [userValidator.bindingPagingOk, Bool.and_eq_true, Bool.or_eq_true, beq_iff_eq,
    decide_eq_true_eq]

/-- C7 (amended): for the user and order list endpoints, when the bound
page/limit pass the binding tags (each absent/zero, or within range: limit
1..100, page at least 1), an absent or zero page becomes 1 and an absent or
zero limit becomes the per-entity default (20 for users, 10 for orders);
out-of-range values — a negative page or a limit outside 1..100 — are
rejected with a validation error rather than defaulted or clamped, so every
effective limit lies in 1..100 but never by clamping. The orders-by-user
endpoint never rejects: it silently falls back to page 1 and limit 10 when
binding fails or the page parameter is absent. -/
theorem effective_pagination_characterization (pageParam limitParam : Option Int) :
    (userValidator.bindingPagingOk (pageParam.getD 0) (limitParam.getD 0) = true →
        userHandler.effectivePaging pageParam limitParam =
          .ok (if pageParam.getD 0 ≤ 0 then 1 else pageParam.getD 0,
               if limitParam.getD 0 ≤ 0 then 20 else limitParam.getD 0) ∧
        orderHandler.effectivePaging pageParam limitParam =
          .ok (if pageParam.getD 0 ≤ 0 then 1 else pageParam.getD 0,
               if limitParam.getD 0 ≤ 0 then 10 else limitParam.getD 0)) ∧
    (userValidator.bindingPagingOk (pageParam.getD 0) (limitParam.getD 0) = false →
        userHandler.effectivePaging pageParam limitParam = .error (.base .invalid) ∧
        orderHandler.effectivePaging pageParam limitParam = .error (.base .invalid)) ∧
    (∀ p l, userHandler.effectivePaging pageParam limitParam = .ok (p, l) →
        1 ≤ p ∧ 1 ≤ l ∧ l ≤ 100) ∧
    (∀ p l, orderHandler.effectivePaging pageParam limitParam = .ok (p, l) →
        1 ≤ p ∧ 1 ≤ l ∧ l ≤ 100) ∧
    (1 ≤ (orderHandler.effectivePagingByUser pageParam limitParam).1 ∧
     1 ≤ (orderHandler.effectivePagingByUser pageParam limitParam).2 ∧
     (orderHandler.effectivePagingByUser pageParam limitParam).2 ≤ 100) := by
  have huser : ∀ h : userValidator.bindingPagingOk (pageParam.getD 0) (limitParam.getD 0) = true,
      userHandler.effectivePaging pageParam limitParam =
        .ok (if pageParam.getD 0 ≤ 0 then 1 else pageParam.getD 0,
             if limitParam.getD 0 ≤ 0 then 20 else limitParam.getD 0) := by
    intro h
    have hrange := (bindingPagingOk_iff _ _).mp h
    simp only [userHandler.effectivePaging, userValidator.ValidatePaging, h,
      not_true_eq_false, if_false, Except.ok.injEq, Prod.mk.injEq]
    constructor
    · split_ifs <;> omega
    · split_ifs <;> omega
  have horder : ∀ h : userValidator.bindingPagingOk (pageParam.getD 0) (limitParam.getD 0) = true,
      orderHandler.effectivePaging pageParam limitParam =
        .ok (if pageParam.getD 0 ≤ 0 then 1 else pageParam.getD 0,
             if limitParam.getD 0 ≤ 0 then 10 else limitParam.getD 0) := by
    intro h
    have hrange := (bindingPagingOk_iff _ _).mp h
    simp only [orderHandler.effectivePaging, ValidatePagination, h,
      not_true_eq_false, if_false, Except.ok.injEq, Prod.mk.injEq]
    constructor
    · split_ifs <;> omega
    · split_ifs <;> omega
  refine ⟨fun h => ⟨huser h, horder h⟩, ?_, ?_, ?_, ?_⟩
  · intro h
    constructor
    · simp only [userHandler.effectivePaging, h]
      simp
    · simp only [orderHandler.effectivePaging, h]
      simp
  · intro p l hok
    rcases hb : userValidator.bindingPagingOk (pageParam.getD 0) (limitParam.getD 0) with _ | _
    · rw [show userHandler.effectivePaging pageParam limitParam = .error (.base .invalid) by
        simp only [userHandler.effectivePaging, hb]; simp] at hok
      exact absurd hok (by simp)
    · have hrange := (bindingPagingOk_iff _ _).mp hb
      rw [huser hb] at hok
      simp only [Except.ok.injEq, Prod.mk.injEq] at hok
      obtain ⟨hp, hl⟩ := hok
      subst hp
      subst hl
      refine ⟨?_, ?_, ?_⟩ <;> split_ifs <;> omega
  · intro p l hok
    rcases hb : userValidator.bindingPagingOk (pageParam.getD 0) (limitParam.getD 0) with _ | _
    · rw [show orderHandler.effectivePaging pageParam limitParam = .error (.base .invalid) by
        simp only [orderHandler.effectivePaging, hb]; simp] at hok
      exact absurd hok (by simp)
    · have hrange := (bindingPagingOk_iff _ _).mp hb
      rw [horder hb] at hok
      simp only [Except.ok.injEq, Prod.mk.injEq] at hok
      obtain ⟨hp, hl⟩ := hok
      subst hp
      subst hl
      refine ⟨?_, ?_, ?_⟩ <;> split_ifs <;> omega
  · rcases pageParam with _ | pv
    · simp [orderHandler.effectivePagingByUser, ValidatePagination]
    · rcases hb : userValidator.bindingPagingOk pv (limitParam.getD 0) with _ | _
      · simp only [orderHandler.effectivePagingByUser, hb, ValidatePagination]
        simp
      · have hrange := (bindingPagingOk_iff _ _).mp hb
        simp only [orderHandler.effectivePagingByUser, hb, ValidatePagination, if_true]
        refine ⟨?_, ?_, ?_⟩ <;> split_ifs <;> omega

/-- Witness for C7's amended characterization at absent parameters. -/
theorem effective_pagination_characterization_witness :
    userHandler.effectivePaging none none = .ok (1, 20) ∧
    orderHandler.effectivePaging none none = .ok (1, 10) := by
  obtain ⟨h1, h2⟩ := (effective_pagination_characterization none none).1 rfl
  exact ⟨h1, h2⟩

/-- The identifier supply used in concrete witnesses: `n` is mapped to a
string of `n` repeated characters, an injective assignment. -/
def witnessIdGen (n : Nat) : String :=
  String.mk (List.replicate n 'a')

/-- The witness identifier supply is injective (helper lemma). -/
theorem witnessIdGen_inj : ∀ m n, witnessIdGen m = witnessIdGen n → m = n := by
  intro m n h
  have h2 := congrArg (fun s => s.data.length) h
  simpa [witnessIdGen] using h2

/-- Shape of a successful `userService.Create` (helper lemma): the response
carries the identifier drawn at the current generation counter and the
counter advances by one. -/
theorem userService_create_ok_shape (uuidGen : Nat → String) (now : Nat) (s : UserDB)
    (req : CreateUserRequest) (r : UserResponse) (s2 : UserDB)
    (h : userService.Create uuidGen now s req = (.ok r, s2)) :
    r.id = uuidGen s.gen ∧ s2.gen = s.gen + 1 := by
  unfold userService.Create at h
  rcases hf : userRepository.findByEmail s.users req.email with e | u
  · rw [hf] at h
    dsimp only at h
    by_cases hnf : errorIs e .notFound
    · rw [if_neg (by simp [hnf])] at h
      simp only [Prod.mk.injEq, Except.ok.injEq] at h
      obtain ⟨hr, hs⟩ := h
      constructor
      · rw [← hr]
        rfl
      · rw [← hs]
    · rw [if_pos (by simp [hnf])] at h
      simp at h
  · rw [hf] at h
    dsimp only at h
    simp at h

/-- C4: a `User.Create` call whose email already belongs to some persisted
user is rejected with error code `EMAIL_EXISTS` (mapped to the 400
conflict/bad-input class) and leaves the table and generation counter
untouched (no second record); and, provided the identifier supply is
injective, any two consecutive successful `Create` calls return responses
with distinct identifiers. -/
theorem user_create_duplicate_email_conflict_and_fresh_ids
    (uuidGen : Nat → String) (hinj : ∀ m n, uuidGen m = uuidGen n → m = n) :
    (∀ now s req, (∃ u ∈ UserDB.users s, u.email = req.email) →
        ∃ e, userService.Create uuidGen now s req = (.error e, s) ∧
          e.code = ErrorCodeEmailExists ∧ mapErrorCodeToHTTPStatus e.code = 400) ∧
    (∀ now1 now2 s req1 req2 r1 s1 r2 s2,
        userService.Create uuidGen now1 s req1 = (.ok r1, s1) →
        userService.Create uuidGen now2 s1 req2 = (.ok r2, s2) →
        r1.id ≠ r2.id) := by
  constructor
  · intro now s req hdup
    have hsome : (s.users.find? (fun u => u.email == req.email)).isSome := by
      rw [List.find?_isSome]
      obtain ⟨u, hu, he⟩ := hdup
      exact ⟨u, hu, by simp [he]⟩
    obtain ⟨u, hu⟩ := Option.isSome_iff_exists.mp hsome
    refine ⟨NewServiceError (.base .invalid) "User with this email already exists" ErrorCodeEmailExists,
      ?_, by decide, by decide⟩
    unfold userService.Create userRepository.findByEmail
    rw [hu]
  · intro now1 now2 s req1 req2 r1 s1 r2 s2 h1 h2
    obtain ⟨hid1, hgen1⟩ := userService_create_ok_shape uuidGen now1 s req1 r1 s1 h1
    obtain ⟨hid2, hgen2⟩ := userService_create_ok_shape uuidGen now2 s1 req2 r2 s2 h2
    intro hEq
    rw [hid1, hid2, hgen1] at hEq
    exact absurd (hinj _ _ hEq) (by omega)

/-- Witness for C4: a duplicate-email rejection on a one-user table, and
distinct identifiers for two successful creations from an empty table. -/
theorem user_create_duplicate_email_conflict_and_fresh_ids_witness :
    (∃ e, userService.Create witnessIdGen 3
        ⟨[⟨"u1", "Ann", "ann@x.com", 1, 0, 0⟩], 1⟩ ⟨"Bob", "ann@x.com"⟩ =
          (.error e, ⟨[⟨"u1", "Ann", "ann@x.com", 1, 0, 0⟩], 1⟩) ∧
        e.code = ErrorCodeEmailExists ∧ mapErrorCodeToHTTPStatus e.code = 400) ∧
    (∀ r1 s1 r2 s2,
        userService.Create witnessIdGen 1 ⟨[], 0⟩ ⟨"Ann", "ann@x.com"⟩ = (.ok r1, s1) →
        userService.Create witnessIdGen 2 s1 ⟨"Bob", "bob@x.com"⟩ = (.ok r2, s2) →
        r1.id ≠ r2.id) :=
  ⟨(user_create_duplicate_email_conflict_and_fresh_ids witnessIdGen witnessIdGen_inj).1 3
      ⟨[⟨"u1", "Ann", "ann@x.com", 1, 0, 0⟩], 1⟩ ⟨"Bob", "ann@x.com"⟩
      ⟨⟨"u1", "Ann", "ann@x.com", 1, 0, 0⟩, by decide, rfl⟩,
   fun r1 s1 r2 s2 h1 h2 =>
     (user_create_duplicate_email_conflict_and_fresh_ids witnessIdGen witnessIdGen_inj).2
       1 2 ⟨[], 0⟩ ⟨"Ann", "ann@x.com"⟩ ⟨"Bob", "bob@x.com"⟩ r1 s1 r2 s2 h1 h2⟩

/-- C1 (counterexample): with a registered `UserGetter` whose `GetUserByID`
fails, `Order.Create` does *not* still succeed — the failing call happens in
the pre-create validation step and its error is returned to the caller, so
the claim's guarantee does not extend to `Create` under a failing getter. -/
theorem order_create_fails_when_getter_errors :
    (orderService.Create ⟨none, some fun _ => .error (.base .internal)⟩ true
        (fun _ => "id-0") 0 ⟨[], 0⟩ ⟨"u1", "Widget", 1, 5⟩).1 =
      .error (.base .internal) := rfl

/-- The enrichment capability is unavailable: the `UserGetter` slot is unset,
or it is set but every `GetUserByID` call fails. -/
def getterUnavailable (c : ModuleContainer) : Prop :=
  c.userGetter = none ∨ ∃ g, c.userGetter = some g ∧ ∀ uid, ∃ e, g uid = .error e

/-- Helper lemma: under an unavailable getter, `toOrderResponse` still
succeeds and returns the projection with empty enrichment fields. -/
theorem toOrderResponse_degraded (c : ModuleContainer) (hc : getterUnavailable c) (o : Order) :
    orderService.toOrderResponse c o =
      .ok ⟨o.id, o.userID, "", "", o.productName, o.quantity, o.amount, o.status,
           orderService.getStatusText o.status, o.createdAt, o.updatedAt⟩ := by
  rcases hc with hg | ⟨g, hg, hfail⟩
  · unfold orderService.toOrderResponse
    rw [hg]
  · unfold orderService.toOrderResponse
    rw [hg]
    dsimp only
    obtain ⟨e, he⟩ := hfail o.userID
    rw [he]

/-- Helper lemma: under an unavailable getter, the conversion loop succeeds
on any list and every produced response has empty enrichment fields. -/
theorem convertOrdersToResponses_degraded (c : ModuleContainer) (hc : getterUnavailable c) :
    ∀ orders, ∃ rs, orderService.convertOrdersToResponses c orders = .ok rs ∧
      ∀ r ∈ rs, r.userName = "" ∧ r.userEmail = "" := by
  intro orders
  induction orders with
  | nil => exact ⟨[], rfl, by simp⟩
  | cons o rest ih =>
      obtain ⟨rs, hrs, hempty⟩ := ih
      refine ⟨⟨o.id, o.userID, "", "", o.productName, o.quantity, o.amount, o.status,
        orderService.getStatusText o.status, o.createdAt, o.updatedAt⟩ :: rs, ?_, ?_⟩
      · unfold orderService.convertOrdersToResponses
        rw [toOrderResponse_degraded c hc o, hrs]
      · intro r hr
        rcases List.mem_cons.mp hr with h | h
        · subst h
          exact ⟨rfl, rfl⟩
        · exact hempty r h

/-- C1 (amended): when the `UserGetter` capability is unset or every
`GetUserByID` call fails, response shaping never propagates the failure:
`toOrderResponse` always succeeds with empty `userName`/`userEmail`, and so
do `GetByID` (on an existing order), `GetAll`, and `GetByUserID` (when the
user verification step passes). `Create`, however, calls `GetUserByID` for
pre-create validation, so it reaches the degraded-but-successful outcome
only when the getter is *unset* and the verifier, if set, confirms the user:
then it succeeds with empty enrichment fields (a failing registered getter
instead fails the whole call — see the counterexample). -/
theorem order_responses_degrade_to_empty_user_fields
    (c : ModuleContainer) (hc : getterUnavailable c) :
    (∀ o, ∃ r, orderService.toOrderResponse c o = .ok r ∧ r.userName = "" ∧ r.userEmail = "") ∧
    (∀ s id o, orderRepository.findByID (OrderDB.orders s) id = .ok o →
        ∃ r, orderService.GetByID c s id = .ok r ∧ r.userName = "" ∧ r.userEmail = "") ∧
    (∀ s req, ∃ resp, orderService.GetAll c s req = .ok resp ∧
        ∀ r ∈ OrderPagingResponse.data resp, r.userName = "" ∧ r.userEmail = "") ∧
    (∀ s uid page limit, orderService.verifyUserExists c uid = none →
        ∃ resp, orderService.GetByUserID c s uid page limit = .ok resp ∧
          ∀ r ∈ OrderPagingResponse.data resp, r.userName = "" ∧ r.userEmail = "") ∧
    (∀ hasDB uuidGen now s req, c.userGetter = none →
        orderService.verifyUserExists c (CreateOrderRequest.userID req) = none →
        ∃ r s2, orderService.Create c hasDB uuidGen now s req = (.ok r, s2) ∧
          r.userName = "" ∧ r.userEmail = "") := by
  refine ⟨?_, ?_, ?_, ?_, ?_⟩
  · intro o
    exact ⟨_, toOrderResponse_degraded c hc o, rfl, rfl⟩
  · intro s id o hfind
    unfold orderService.GetByID
    rw [hfind]
    dsimp only
    rw [toOrderResponse_degraded c hc o]
    exact ⟨_, rfl, rfl, rfl⟩
  · intro s req
    unfold orderService.GetAll
    dsimp only
    rcases hfa : orderRepository.findAllWithFilters s.orders req.userID req.productName req.status
        (ValidatePagination req.page req.limit DefaultPaginationLimit).1
        (ValidatePagination req.page req.limit DefaultPaginationLimit).2 with e | ⟨rows, total⟩
    · simp [orderRepository.findAllWithFilters] at hfa
    · obtain ⟨rs, hrs, hempty⟩ := convertOrdersToResponses_degraded c hc rows
      dsimp only
      rw [hrs]
      exact ⟨_, rfl, hempty⟩
  · intro s uid page limit hv
    unfold orderService.GetByUserID
    dsimp only
    rw [hv]
    rcases hfa : orderRepository.findByUserID s.orders uid
        (ValidatePagination page limit DefaultPaginationLimit).1
        (ValidatePagination page limit DefaultPaginationLimit).2 with e | ⟨rows, total⟩
    · simp [orderRepository.findByUserID] at hfa
    · obtain ⟨rs, hrs, hempty⟩ := convertOrdersToResponses_degraded c hc rows
      dsimp only
      rw [hrs]
      exact ⟨_, rfl, hempty⟩
  · intro hasDB uuidGen now s req hgnone hv
    unfold orderService.Create orderService.getUserForValidation
    rw [hgnone, hv]
    dsimp only
    rw [toOrderResponse_degraded c hc]
    exact ⟨_, _, rfl, rfl, rfl⟩

/-- Witness for C1's amended theorem: an empty registry, a concrete order
table and a concrete creation request. -/
theorem order_responses_degrade_to_empty_user_fields_witness :
    (∃ r, orderService.GetByID ⟨none, none⟩ ⟨[⟨"o1", "u1", "Widget", 1, 5, 1, 0, 0⟩], 1⟩ "o1" =
        .ok r ∧ r.userName = "" ∧ r.userEmail = "") ∧
    (∃ r s2, orderService.Create ⟨none, none⟩ true witnessIdGen 4 ⟨[], 0⟩
        ⟨"u1", "Widget", 2, 9⟩ = (.ok r, s2) ∧ r.userName = "" ∧ r.userEmail = "") :=
  ⟨(order_responses_degrade_to_empty_user_fields ⟨none, none⟩ (Or.inl rfl)).2.1
      ⟨[⟨"o1", "u1", "Widget", 1, 5, 1, 0, 0⟩], 1⟩ "o1" ⟨"o1", "u1", "Widget", 1, 5, 1, 0, 0⟩ rfl,
   (order_responses_degrade_to_empty_user_fields ⟨none, none⟩ (Or.inl rfl)).2.2.2.2
      true witnessIdGen 4 ⟨[], 0⟩ ⟨"u1", "Widget", 2, 9⟩ rfl rfl⟩

/-- Helper lemma: the store-level user update never writes an empty name or
email — the struct-based `Updates` skips zero-valued (empty) fields, so a
row with non-empty name and email keeps them non-empty whatever entity the
service passes down. -/
theorem userRepository_storeUpdate_preserves_nonempty (users : List User) (u : User) (now : Nat)
    (hs : ∀ v ∈ users, v.name ≠ "" ∧ v.email ≠ "") :
    ∀ v ∈ (userRepository.storeUpdate users u now).2, v.name ≠ "" ∧ v.email ≠ "" := by
  intro v hv
  simp only [userRepository.storeUpdate, List.mem_map] at hv
  obtain ⟨w, hw, heq⟩ := hv
  subst heq
  by_cases hid : (w.id == u.id) = true
  · rw [if_pos hid]
    obtain ⟨hn, he⟩ := hs w hw
    unfold userRepository.applyStructUpdates
    constructor
    · dsimp only
      split_ifs with h
      · exact h
      · exact hn
    · dsimp only
      split_ifs with h
      · exact h
      · exact he
  · rw [if_neg hid]
    exact hs w hw

/-- Helper lemma: a successful repository user update preserves non-empty
names and emails. -/
theorem userRepository_update_ok_preserves_nonempty (users : List User) (u : User) (now : Nat)
    (users2 : List User) (h : userRepository.update users u now = .ok users2)
    (hs : ∀ v ∈ users, v.name ≠ "" ∧ v.email ≠ "") :
    ∀ v ∈ users2, v.name ≠ "" ∧ v.email ≠ "" := by
  unfold userRepository.update at h
  dsimp only at h
  split at h
  · simp at h
  · rw [Except.ok.injEq] at h
    subst h
    exact userRepository_storeUpdate_preserves_nonempty users u now hs

/-- Helper lemma: a successful repository user delete preserves non-empty
names and emails (the survivors are a sublist). -/
theorem userRepository_delete_ok_preserves_nonempty (users : List User) (id : String)
    (users2 : List User) (h : userRepository.delete users id = .ok users2)
    (hs : ∀ v ∈ users, v.name ≠ "" ∧ v.email ≠ "") :
    ∀ v ∈ users2, v.name ≠ "" ∧ v.email ≠ "" := by
  unfold userRepository.delete at h
  dsimp only at h
  split at h
  · simp at h
  · rw [Except.ok.injEq] at h
    subst h
    intro v hv
    exact hs v (List.mem_of_mem_filter hv)

/-- Helper lemma: `userService.Update` preserves non-empty names and emails
in every branch. -/
theorem userService_update_preserves_nonempty (now : Nat) (s : UserDB) (id : String)
    (req : UpdateUserRequest) (hs : ∀ v ∈ s.users, v.name ≠ "" ∧ v.email ≠ "") :
    ∀ v ∈ UserDB.users (userService.Update now s id req).2, v.name ≠ "" ∧ v.email ≠ "" := by
  unfold userService.Update
  split
  · split <;> exact hs
  · dsimp only
    split
    · exact hs
    · split
      · split <;> exact hs
      · rename_i user0 users2 heq
        exact userRepository_update_ok_preserves_nonempty s.users _ now users2 heq hs

/-- Helper lemma: `userService.Create` preserves non-empty names and emails
when the request passed the create validation. -/
theorem userService_create_preserves_nonempty (uuidGen : Nat → String) (now : Nat) (s : UserDB)
    (req : CreateUserRequest) (hreq : userValidator.validateCreate req = true)
    (hs : ∀ v ∈ s.users, v.name ≠ "" ∧ v.email ≠ "") :
    ∀ v ∈ UserDB.users (userService.Create uuidGen now s req).2, v.name ≠ "" ∧ v.email ≠ "" := by
  simp only [userValidator.validateCreate, Bool.and_eq_true, decide_eq_true_eq] at hreq
  unfold userService.Create
  split
  · exact hs
  · split
    · exact hs
    · dsimp only
      intro v hv
      simp only [userRepository.create, List.mem_append, List.mem_singleton] at hv
      rcases hv with hv | hv
      · exact hs v hv
      · subst hv
        exact ⟨hreq.1.1.1, hreq.2⟩

/-- Helper lemma: `userService.Delete` preserves non-empty names and
emails. -/
theorem userService_delete_preserves_nonempty (s : UserDB) (id : String)
    (hs : ∀ v ∈ s.users, v.name ≠ "" ∧ v.email ≠ "") :
    ∀ v ∈ UserDB.users (userService.Delete s id).2, v.name ≠ "" ∧ v.email ≠ "" := by
  unfold userService.Delete
  split
  · split <;> exact hs
  · split
    · split <;> exact hs
    · rename_i users2 heq
      exact userRepository_delete_ok_preserves_nonempty s.users id users2 heq hs

/-- C10: the public User interface never clears a persisted name or email.
Starting from any table whose rows all have non-empty name and email, after
any sequence of public-interface requests (creates, partial updates,
deletes, each validated as by the handlers) every persisted row still has a
non-empty name and email: creation demands them non-empty, and an update
treats an empty string as "not supplied", so no call sequence can transition
a user to an empty name or email. -/
theorem user_name_email_never_cleared (uuidGen : Nat → String) (s : UserDB)
    (ops : List (Nat × UserOp)) (hs : ∀ v ∈ UserDB.users s, v.name ≠ "" ∧ v.email ≠ "") :
    ∀ v ∈ UserDB.users (applyUserOps uuidGen s ops), v.name ≠ "" ∧ v.email ≠ "" := by
  induction ops generalizing s with
  | nil => exact hs
  | cons p rest ih =>
      obtain ⟨now, op⟩ := p
      refine ih (applyUserOp uuidGen now s op) ?_
      cases op with
      | create req =>
          by_cases hv : userValidator.validateCreate req = true
          · simpa [applyUserOp, userHandler.create, hv] using
              userService_create_preserves_nonempty uuidGen now s req hv hs
          · simpa [applyUserOp, userHandler.create, hv] using hs
      | update id req =>
          by_cases hv : userValidator.validateUpdate req = true
          · simpa [applyUserOp, userHandler.update, hv] using
              userService_update_preserves_nonempty now s id req hs
          · simpa [applyUserOp, userHandler.update, hv] using hs
      | delete id =>
          simpa [applyUserOp, userHandler.delete] using
            userService_delete_preserves_nonempty s id hs

/-- Witness for C10: after a concrete update that tries to clear the fields
through empty strings and a zero status, the persisted row still has its
non-empty name and email. -/
theorem user_name_email_never_cleared_witness :
    User.name ⟨"u1", "Ann", "ann@x.com", 1, 0, 1⟩ ≠ "" ∧
    User.email ⟨"u1", "Ann", "ann@x.com", 1, 0, 1⟩ ≠ "" :=
  user_name_email_never_cleared witnessIdGen ⟨[⟨"u1", "Ann", "ann@x.com", 1, 0, 0⟩], 1⟩
    [(1, .update "u1" ⟨"", "", some 0⟩)] (by decide)
    ⟨"u1", "Ann", "ann@x.com", 1, 0, 1⟩ (by decide)

/-- C8: in the router's middleware chain (either environment), the eight
specified stages occur in the fixed order — security headers, CORS,
request-id, rate limiting, timeout, request-size then content-type
validation, metrics, logging — each exactly once; a panic-recovery stage
(the one attached by `gin.Default`) sits in front of — and therefore wraps —
all eight of them; and the validation stages, which precede every route
handler, reject an oversized body and a non-JSON body on a mutating verb
before any parsing can happen. -/
theorem middleware_chain_order_and_validation (isProduction : Bool) :
    (stagePos (newRouterChain isProduction) .securityHeaders <
        stagePos (newRouterChain isProduction) .cors ∧
      stagePos (newRouterChain isProduction) .cors <
        stagePos (newRouterChain isProduction) .requestID ∧
      stagePos (newRouterChain isProduction) .requestID <
        stagePos (newRouterChain isProduction) .rateLimit ∧
      stagePos (newRouterChain isProduction) .rateLimit <
        stagePos (newRouterChain isProduction) .timeout ∧
      stagePos (newRouterChain isProduction) .timeout <
        stagePos (newRouterChain isProduction) .requestSizeValidation ∧
      stagePos (newRouterChain isProduction) .requestSizeValidation <
        stagePos (newRouterChain isProduction) .contentTypeValidation ∧
      stagePos (newRouterChain isProduction) .contentTypeValidation <
        stagePos (newRouterChain isProduction) .metrics ∧
      stagePos (newRouterChain isProduction) .metrics <
        stagePos (newRouterChain isProduction) .logging) ∧
    (stagePos (newRouterChain isProduction) .ginRecovery <
        stagePos (newRouterChain isProduction) .securityHeaders ∧
      Stage.ginRecovery ∈ newRouterChain isProduction) ∧
    ((newRouterChain isProduction).count .securityHeaders = 1 ∧
      (newRouterChain isProduction).count .requestSizeValidation = 1 ∧
      (newRouterChain isProduction).count .contentTypeValidation = 1) ∧
    (∀ r : HttpRequest, (r.method = .POST ∨ r.method = .PUT ∨ r.method = .PATCH) →
        r.contentLength ≠ 0 → r.contentType.startsWith "application/json" = false →
        (contentTypeValidation r).isSome) ∧
    (∀ maxSize r, maxSize < r.contentLength →
        requestSizeValidation maxSize r = some ⟨413, "REQUEST_TOO_LARGE"⟩) := by
  refine ⟨?_, ?_, ?_, ?_, ?_⟩
  · cases isProduction <;> exact ⟨by decide, by decide, by decide, by decide, by decide,
      by decide, by decide, by decide⟩
  · cases isProduction <;> exact ⟨by decide, by decide⟩
  · cases isProduction <;> exact ⟨by decide, by decide, by decide⟩
  · intro r hm hlen hct
    unfold contentTypeValidation
    rw [if_neg (by rcases hm with h | h | h <;> simp [h])]
    rw [if_neg hlen]
    by_cases h2 : r.contentType = ""
    · rw [if_pos h2]
      simp
    · rw [if_neg h2]
      rw [if_pos (by simp [hct])]
      simp
  · intro maxSize r h
    unfold requestSizeValidation
    rw [if_pos h]

/-- Witness for C8: the chain facts in development mode, and concrete
rejections of a non-JSON and an oversized POST body. -/
theorem middleware_chain_order_and_validation_witness :
    (contentTypeValidation ⟨.POST, 5, "text/plain"⟩).isSome ∧
    requestSizeValidation 10 ⟨.POST, 11, "application/json"⟩ = some ⟨413, "REQUEST_TOO_LARGE"⟩ ∧
    stagePos (newRouterChain false) .ginRecovery < stagePos (newRouterChain false) .securityHeaders :=
  ⟨(middleware_chain_order_and_validation false).2.2.2.1 ⟨.POST, 5, "text/plain"⟩
      (Or.inl rfl) (by decide) (by decide),
   (middleware_chain_order_and_validation false).2.2.2.2 10 ⟨.POST, 11, "application/json"⟩ (by decide),
   (middleware_chain_order_and_validation false).2.1.1⟩

/-- Helper lemma: a burst of `n` back-to-back `Allow()` calls at the bucket's
current timestamp admits the first `min n c` requests (where `c` is the
current whole-token count), rejects the remaining `n - c`, and leaves
`c - n` tokens. -/
theorem allowSeq_exhaust (R : ℚ) (B : ℕ) (t : ℚ) :
    ∀ (n : ℕ) (l : Limiter) (c : ℕ), l.limitR = R → l.burst = B → l.last = t →
      l.tokens = (c : ℚ) → c ≤ B →
      Limiter.allowSeq l t n =
        (List.replicate (min n c) true ++ List.replicate (n - c) false,
         { limitR := R, burst := B, tokens := ((c - n : ℕ) : ℚ), last := t }) := by
  intro n
  induction n with
  | zero =>
      intro l c h1 h2 h3 h4 h5
      obtain ⟨lr, lb, ltk, lls⟩ := l
      dsimp only at h1 h2 h3 h4
      subst h1
      subst h2
      subst h3
      subst h4
      simp [Limiter.allowSeq]
  | succ n ih =>
      intro l c h1 h2 h3 h4 h5
      have hadv : l.advance t = (c : ℚ) := by
        unfold Limiter.advance
        rw [h3, sub_self, zero_mul, add_zero, h4, h2]
        exact min_eq_right (by exact_mod_cast h5)
      match c, h4, h5 with
      | 0, h4, h5 =>
          have hfirst : l.allow t = (false, { l with tokens := ((0 : ℕ) : ℚ), last := t }) := by
            unfold Limiter.allow
            dsimp only
            rw [hadv]
            rw [if_neg (by norm_num)]
          unfold Limiter.allowSeq
          dsimp only
          rw [hfirst]
          dsimp only
          rw [ih { l with tokens := ((0 : ℕ) : ℚ), last := t } 0 h1 h2 rfl rfl (by omega)]
          simp [List.replicate_succ]
      | (m + 1), h4, h5 =>
          have hone : (1 : ℚ) ≤ ((m + 1 : ℕ) : ℚ) := by exact_mod_cast Nat.succ_le_succ (Nat.zero_le m)
          have hfirst : l.allow t = (true, { l with tokens := ((m + 1 : ℕ) : ℚ) - 1, last := t }) := by
            unfold Limiter.allow
            dsimp only
            rw [hadv]
            rw [if_pos hone]
          have htok : ((m + 1 : ℕ) : ℚ) - 1 = ((m : ℕ) : ℚ) := by
            push_cast
            ring
          unfold Limiter.allowSeq
          dsimp only
          rw [hfirst]
          dsimp only
          rw [ih { l with tokens := ((m + 1 : ℕ) : ℚ) - 1, last := t } m h1 h2 rfl htok (by omega)]
          simp [Nat.succ_min_succ, Nat.succ_sub_succ, List.replicate_succ]

/-- C9: starting from a fresh token bucket with burst `B ≥ 1` and rate
`R > 0`, a burst of `B + 1` requests in zero elapsed time admits exactly the
first `B` and rejects the last one (at least one rejection); any rejected
request is answered with HTTP 429 / `RATE_LIMIT_EXCEEDED` by the rate-limit
middleware; and after waiting `1/R` seconds from exhaustion exactly one
additional request is admitted — the next one at the same instant is
rejected again. -/
theorem rate_limiter_burst_then_refill (R : ℚ) (B : ℕ) (hR : 0 < R) (hB : 1 ≤ B) :
    (Limiter.allowSeq (Limiter.new R B) 0 (B + 1)).1 = List.replicate B true ++ [false] ∧
    (rateLimitMiddleware ((Limiter.allowSeq (Limiter.new R B) 0 (B + 1)).2) (1 / R)).1 = none ∧
    (((rateLimitMiddleware ((Limiter.allowSeq (Limiter.new R B) 0 (B + 1)).2) (1 / R)).2.allow
        (1 / R)).1 = false) ∧
    (∀ l t, (Limiter.allow l t).1 = false →
        (rateLimitMiddleware l t).1 = some ⟨429, ErrorCodeRateLimitExceeded⟩) := by
  have hseq := allowSeq_exhaust R B 0 (B + 1) (Limiter.new R B) B rfl rfl rfl rfl (le_refl B)
  rw [show min (B + 1) B = B by omega, show B + 1 - B = 1 by omega,
    show B - (B + 1) = 0 by omega] at hseq
  have hallow1 : (Limiter.mk R B ((0 : ℕ) : ℚ) 0).allow (1 / R) =
      (true, Limiter.mk R B 0 (1 / R)) := by
    unfold Limiter.allow Limiter.advance
    dsimp only
    have hmin : min ((B : ℕ) : ℚ) (((0 : ℕ) : ℚ) + (1 / R - 0) * R) = 1 := by
      push_cast
      rw [zero_add, sub_zero, one_div, inv_mul_cancel₀ hR.ne']
      exact min_eq_right (by exact_mod_cast hB)
    rw [hmin, if_pos (le_refl 1)]
    norm_num
  have hallow2 : ((Limiter.mk R B 0 (1 / R)).allow (1 / R)).1 = false := by
    unfold Limiter.allow Limiter.advance
    dsimp only
    have hmin : min ((B : ℕ) : ℚ) ((0 : ℚ) + (1 / R - 1 / R) * R) = 0 := by
      rw [sub_self, zero_mul, add_zero]
      exact min_eq_right (by positivity)
    rw [hmin, if_neg (by norm_num)]
  refine ⟨?_, ?_, ?_, ?_⟩
  · rw [hseq]
    rfl
  · rw [hseq]
    unfold rateLimitMiddleware
    dsimp only
    rw [hallow1]
    rfl
  · rw [hseq]
    unfold rateLimitMiddleware
    dsimp only
    rw [hallow1]
    rw [if_pos rfl]
    dsimp only
    rw [hallow2]
  · intro l t h
    unfold rateLimitMiddleware
    dsimp only
    rw [show l.allow t = ((l.allow t).1, (l.allow t).2) from rfl, h]
    rfl

/-- Witness for C9 at burst 2 and rate 1. -/
theorem rate_limiter_burst_then_refill_witness :
    (Limiter.allowSeq (Limiter.new 1 2) 0 3).1 = List.replicate 2 true ++ [false] ∧
    (rateLimitMiddleware ((Limiter.allowSeq (Limiter.new 1 2) 0 3).2) (1 / 1)).1 = none ∧
    (((rateLimitMiddleware ((Limiter.allowSeq (Limiter.new 1 2) 0 3).2) (1 / 1)).2.allow
        (1 / 1)).1 = false) ∧
    (∀ l t, (Limiter.allow l t).1 = false →
        (rateLimitMiddleware l t).1 = some ⟨429, ErrorCodeRateLimitExceeded⟩) :=
  rate_limiter_burst_then_refill 1 2 (by norm_num) (by norm_num)
